import Mathlib

/-!
# Verification of the kebab-du-coin shopping-cart logic

Shallow embedding of the cart model implemented in `src/script.js`
(class `ShoppingCart`), together with the surrounding validation
constants (`VALIDATION_PATTERNS`, `CHECKOUT_PATTERNS`, `MIN_ORDER_TOTAL`)
and the option-collection logic (`collectMenuItemOptions`).

Conventions of the embedding:
* JS numbers that hold prices/totals are modelled as `ℚ` (the concrete
  values appearing in the program — menu prices with two decimals,
  the threshold 15 — are exactly representable, and the claims under
  test only involve such values).
* Quantities are modelled as `Int` (the program only ever produces
  integers there: 1, `q+1`, the `n` of `updateQuantity`).
* Strings are Lean `String`s; the JS string helpers used by the code
  (`trim`, `toLowerCase`, `replace(/\s+/g,'-')`, regex `test`) are
  modelled explicitly below on the Unicode scalar values.
* `localStorage` contents are modelled abstractly: a stored value is
  either absent, present-but-not-JSON (so `JSON.parse` throws), or a
  parsed JSON document, represented by the `Json` inductive below.
* DOM reads (dataset attributes, selected buttons, select values) are
  modelled as explicit record fields holding the values the code reads.
-/

/- ## JS primitive string helpers -/

/-- The ECMAScript whitespace class `\s` (WhiteSpace ∪ LineTerminator):
TAB, LF, VT, FF, CR, SP, NBSP, OGHAM SP, U+2000..U+200A, LS, PS, NNBSP,
MMSP, IDEOGRAPHIC SP, BOM. -/
def jsWhitespace (c : Char) : Bool :=
  decide ((9 ≤ c.toNat ∧ c.toNat ≤ 13) ∨ c.toNat = 32 ∨ c.toNat = 160 ∨
    c.toNat = 5760 ∨ (8192 ≤ c.toNat ∧ c.toNat ≤ 8202) ∨ c.toNat = 8232 ∨
    c.toNat = 8233 ∨ c.toNat = 8239 ∨ c.toNat = 8287 ∨ c.toNat = 12288 ∨
    c.toNat = 65279)

/-- The ECMAScript digit class `\d` (no `u` flag): exactly `0`-`9`. -/
def jsDigit (c : Char) : Bool :=
  decide (48 ≤ c.toNat ∧ c.toNat ≤ 57)

/-- `String.prototype.trim`: strip leading and trailing `\s` characters. -/
def jsTrim (s : String) : String :=
  ⟨((s.data.dropWhile jsWhitespace).reverse.dropWhile jsWhitespace).reverse⟩

/-- Character-wise `String.prototype.toLowerCase`, restricted to the
Basic-Latin and Latin-1 repertoire the site's menu data uses
(`A`-`Z` ↦ `a`-`z`, `À`-`Þ` ↦ `à`-`þ` except the non-letter `×`). -/
def jsToLowerChar (c : Char) : Char :=
  if 65 ≤ c.toNat ∧ c.toNat ≤ 90 then Char.ofNat (c.toNat + 32)
  else if 192 ≤ c.toNat ∧ c.toNat ≤ 222 ∧ c.toNat ≠ 215 then Char.ofNat (c.toNat + 32)
  else c

/-- Helper for `replace(/\s+/g, '-')`: each maximal run of `\s`
characters becomes a single `-`.  `prevWs` records whether the previous
character belonged to a whitespace run. -/
def collapseWs : List Char → Bool → List Char
  | [], _ => []
  | c :: cs, prevWs =>
    if jsWhitespace c then
      if prevWs then collapseWs cs true else '-' :: collapseWs cs true
    else c :: collapseWs cs false

/-- `str.toLowerCase().replace(/\s+/g, '-')` as used by `generateItemId`. -/
def normalizeIdPart (s : String) : String :=
  ⟨collapseWs (s.data.map jsToLowerChar) false⟩

/- ## Cart data model (`src/script.js` lines 752-841) -/

/-- One collected option triple (`{key, label, value}`). -/
structure OptTriple where
  key : String
  label : String
  value : String
deriving DecidableEq, Repr

/-- The argument object handed to `addItem` by the add-to-cart handler:
`id`, `name`, `price` (a parsed float), `category`, `options`.
The `id` is computed by `generateItemId` from the *string* form of the
price (`dataset.price`), hence `id` is carried separately. -/
structure ItemInput where
  id : String
  name : String
  price : ℚ
  category : String
  options : List OptTriple
deriving DecidableEq, Repr

/-- A cart line item as stored in `this.items`: the pushed object is the
spread of the input plus `quantity` and `addedAt`. -/
structure Entry where
  id : String
  name : String
  price : ℚ
  category : String
  options : List OptTriple
  quantity : Int
  addedAt : Int
deriving DecidableEq, Repr

/-- `ShoppingCart.generateItemId(menuItem, options)`:
`baseId = (name + "-" + price).toLowerCase().replace(/\s+/g,'-')`;
with options, append `-` and the `-`-join of the normalized
`key + "-" + value` pairs. -/
def generateItemId (name priceStr : String) (options : List OptTriple) : String :=
  let baseId := normalizeIdPart (name ++ "-" ++ priceStr)
  if options.isEmpty then baseId
  else
    baseId ++ "-" ++
      String.intercalate "-"
        (options.map fun o => normalizeIdPart (o.key ++ "-" ++ o.value))

/-- The entry pushed by `addItem` when no entry with the same id exists:
`{...item, quantity: 1, addedAt: Date.now()}`. -/
def mkEntry (now : Int) (it : ItemInput) : Entry :=
  ⟨it.id, it.name, it.price, it.category, it.options, 1, now⟩

/-- `ShoppingCart.addItem(item)` on the item list: `find` the first entry
with the same `id` and increment its quantity in place; otherwise push a
new entry with quantity 1. -/
def addItemItems (now : Int) (it : ItemInput) : List Entry → List Entry
  | [] => [mkEntry now it]
  | e :: es =>
    if e.id = it.id then { e with quantity := e.quantity + 1 } :: es
    else e :: addItemItems now it es

/-- `ShoppingCart.removeItem(itemId)` on the item list:
`this.items.filter(item => item.id !== itemId)`. -/
def removeItems (itemId : String) (items : List Entry) : List Entry :=
  items.filter fun e => e.id ≠ itemId

/-- The `item.quantity = newQuantity` branch of `updateQuantity`: the
first entry `find` returns gets the new quantity. -/
def setFirstQuantity (itemId : String) (n : Int) : List Entry → List Entry
  | [] => []
  | e :: es =>
    if e.id = itemId then { e with quantity := n } :: es
    else e :: setFirstQuantity itemId n es

/-- `ShoppingCart.getTotal()`:
`items.reduce((total, item) => total + item.price * item.quantity, 0)`. -/
def getTotal (items : List Entry) : ℚ :=
  items.foldl (fun total e => total + e.price * (e.quantity : ℚ)) 0

/-- `ShoppingCart.getTotalItems()`:
`items.reduce((total, item) => total + item.quantity, 0)`. -/
def getTotalItems (items : List Entry) : Int :=
  items.foldl (fun total e => total + e.quantity) 0

/- ## Cart state with persistence effect -/

/-- The observable cart state: the item list plus a count of
`saveCartToStorage` calls (each such call is one write of the serialized
list to `localStorage`). -/
structure CartState where
  items : List Entry
  saves : Nat
deriving DecidableEq, Repr

/-- The freshly constructed cart when storage is empty. -/
def emptyCart : CartState := ⟨[], 0⟩

/-- `addItem` on the cart state: mutate the list, then
`saveCartToStorage()` (always). -/
def addItemOp (now : Int) (it : ItemInput) (s : CartState) : CartState :=
  ⟨addItemItems now it s.items, s.saves + 1⟩

/-- `removeItem` on the cart state: filter, then save (always). -/
def removeItemOp (itemId : String) (s : CartState) : CartState :=
  ⟨removeItems itemId s.items, s.saves + 1⟩

/-- `updateQuantity(itemId, newQuantity)`: only acts when `find` locates
an entry with that id; then `newQuantity <= 0` delegates to
`removeItem`, otherwise the quantity is set and the cart saved. -/
def updateQuantityOp (itemId : String) (n : Int) (s : CartState) : CartState :=
  if s.items.any (fun e => e.id = itemId) then
    if n ≤ 0 then removeItemOp itemId s
    else ⟨setFirstQuantity itemId n s.items, s.saves + 1⟩
  else s

/-- `clearCart()`: empty the list, then save. -/
def clearCartOp (s : CartState) : CartState :=
  ⟨[], s.saves + 1⟩

/-- One user-level cart mutation. -/
inductive CartOp where
  | add (now : Int) (it : ItemInput)
  | remove (itemId : String)
  | update (itemId : String) (n : Int)
  | clear
deriving Repr

/-- Apply one mutation. -/
def applyOp (s : CartState) : CartOp → CartState
  | .add now it => addItemOp now it s
  | .remove itemId => removeItemOp itemId s
  | .update itemId n => updateQuantityOp itemId n s
  | .clear => clearCartOp s

/-- Apply a sequence of mutations. -/
def applyOps (s : CartState) (ops : List CartOp) : CartState :=
  ops.foldl applyOp s

/- ## Validation patterns (`src/script.js` lines 65-74)

`VALIDATION_PATTERNS.name = /^[a-zA-ZÀ-ÿ\s'-]{2,50}$/` and
`VALIDATION_PATTERNS.phone = /^\d{3}(?:\s?\d{3})(?:\s?\d{2}){2}$/`;
`CHECKOUT_PATTERNS` aliases both.  The name regex is an anchored single
character class with a counted quantifier, so `test` succeeds exactly
when every character lies in the class and the length is between 2 and
50.  The phone regex is anchored and deterministic (`\s` and `\d` are
disjoint, so the greedy `\s?` never needs backtracking) and is compiled
to the sequential parser below. -/

/-- The character class `[a-zA-ZÀ-ÿ\s'-]` of the name pattern.
`À`-`ÿ` is the code-point range U+00C0..U+00FF. -/
def nameClassChar (c : Char) : Bool :=
  decide ((97 ≤ c.toNat ∧ c.toNat ≤ 122) ∨ (65 ≤ c.toNat ∧ c.toNat ≤ 90) ∨
    (192 ≤ c.toNat ∧ c.toNat ≤ 255)) ||
  jsWhitespace c || decide (c = '\'') || decide (c = '-')

/-- `CHECKOUT_PATTERNS.name.test(s)`. -/
def nameTest (s : String) : Bool :=
  decide (2 ≤ s.data.length) && decide (s.data.length ≤ 50) &&
    s.data.all nameClassChar

/-- Consume exactly `n` characters of `\d`, returning the rest. -/
def takeDigits : Nat → List Char → Option (List Char)
  | 0, cs => some cs
  | _ + 1, [] => none
  | n + 1, c :: cs => if jsDigit c then takeDigits n cs else none

/-- Consume the greedy `\s?`: drop one leading `\s` character if present. -/
def skipOptWs : List Char → List Char
  | [] => []
  | c :: cs => if jsWhitespace c then cs else c :: cs

/-- Sequential parser for `^\d{3}(?:\s?\d{3})(?:\s?\d{2}){2}$`:
the leftover after the four digit groups and three optional separators. -/
def phoneParse (cs : List Char) : Option (List Char) :=
  (takeDigits 3 cs).bind fun r1 =>
    (takeDigits 3 (skipOptWs r1)).bind fun r2 =>
      (takeDigits 2 (skipOptWs r2)).bind fun r3 =>
        takeDigits 2 (skipOptWs r3)

/-- `CHECKOUT_PATTERNS.phone.test(s)`: the parse succeeds and the `$`
anchor leaves nothing over. -/
def phoneTest (s : String) : Bool :=
  phoneParse s.data = some []

/- ## Checkout (`src/script.js` lines 998-1101) -/

/-- The six checkout input values, as read from the DOM fields
(all fields are assumed present, per the DOM contract). -/
structure CheckoutFields where
  lastName : String
  firstName : String
  address : String
  city : String
  phone : String
  paymentMethod : String
deriving DecidableEq, Repr

/-- Per-field check of `validateCheckoutDetails`: the trimmed value must
be non-empty (`baseInvalid`), and pattern-checked fields must pass
(`patternInvalid`): phone and the two names against `CHECKOUT_PATTERNS`,
payment method against `value === ''`. -/
def checkoutFieldOk (key : String) (raw : String) : Bool :=
  let value := jsTrim raw
  let baseInvalid := value = ""
  let patternInvalid :=
    if key = "phone" then !phoneTest value
    else if key = "lastName" ∨ key = "firstName" then !nameTest value
    else if key = "paymentMethod" then value = ""
    else false
  !(baseInvalid || patternInvalid)

/-- `ShoppingCart.validateCheckoutDetails()`. -/
def validateCheckoutDetails (f : CheckoutFields) : Bool :=
  checkoutFieldOk "lastName" f.lastName &&
  checkoutFieldOk "firstName" f.firstName &&
  checkoutFieldOk "address" f.address &&
  checkoutFieldOk "city" f.city &&
  checkoutFieldOk "phone" f.phone &&
  checkoutFieldOk "paymentMethod" f.paymentMethod

/-- `MIN_ORDER_TOTAL = 15`. -/
def MIN_ORDER_TOTAL : ℚ := 15

/-- Outcome of one `checkout()` call: whether the order summary was
presented for confirmation (`accepted`), the item list afterwards, and
whether a persistence write happened during the call. -/
structure CheckoutResult where
  accepted : Bool
  items : List Entry
  saved : Bool
deriving DecidableEq, Repr

/-- `ShoppingCart.checkout()`, with the user's answer to the
confirmation dialog as the `confirm` argument.  The three guards return
early, before any mutation or save; only a confirmed order clears the
cart (which saves the now-empty list). -/
def checkout (items : List Entry) (f : CheckoutFields) (confirm : Bool) :
    CheckoutResult :=
  if items.length = 0 then ⟨false, items, false⟩
  else if !validateCheckoutDetails f then ⟨false, items, false⟩
  else if getTotal items < MIN_ORDER_TOTAL then ⟨false, items, false⟩
  else if confirm then ⟨true, [], true⟩
  else ⟨true, items, false⟩

/- ## Persistence and restore (`src/script.js` lines 1127-1148) -/

/-- A JSON document, the possible result of `JSON.parse`. -/
inductive Json where
  | null
  | bool (b : Bool)
  | num (q : ℚ)
  | str (s : String)
  | arr (elems : List Json)
  | obj (fields : List (String × Json))

/-- What `localStorage.getItem('kebab_cart')` followed by `JSON.parse`
can yield: no stored value (or an empty string, both falsy), a stored
text on which `JSON.parse` throws, or a parsed document. -/
inductive Stored where
  | absent
  | unparsable
  | parsed (j : Json)

/-- Property access `item?.options`-style on a parsed value: only
objects have named fields (a first-match association lookup). -/
def lookupField (j : Json) (key : String) : Option Json :=
  match j with
  | .obj fields => fields.lookup key
  | _ => none

/-- The own enumerable properties contributed by a spread `{...item}`:
an object's fields; an array or string spreads index-keyed elements;
primitives contribute nothing. -/
def spreadProps : Json → List (String × Json)
  | .obj fields => fields
  | .arr elems => (elems.enum.map fun p => (toString p.1, p.2))
  | .str s => (s.data.enum.map fun p => (toString p.1, Json.str ⟨[p.2]⟩))
  | _ => []

/-- Object-literal update `{...item, options: v}`: an existing `options`
key is overwritten in place, otherwise the field is appended. -/
def setField : List (String × Json) → String → Json → List (String × Json)
  | [], key, v => [(key, v)]
  | (k, v') :: fs, key, v =>
    if k = key then (key, v) :: fs else (k, v') :: setField fs key v

/-- Per-entry normalization in `loadCartFromStorage`:
`{...item, options: Array.isArray(item?.options) ? item.options : []}`. -/
def normalizeEntry (j : Json) : Json :=
  let options :=
    match lookupField j "options" with
    | some (.arr l) => Json.arr l
    | _ => Json.arr []
  .obj (setField (spreadProps j) "options" options)

/-- `ShoppingCart.loadCartFromStorage()`: absent text, text that fails to
parse (the exception is caught), and parsed non-arrays all give `[]`;
a parsed array is mapped through `normalizeEntry` with no further
validation. -/
def loadCartFromStorage (st : Stored) : List Json :=
  match st with
  | .absent => []
  | .unparsable => []
  | .parsed j =>
    match j with
    | .arr elems => elems.map normalizeEntry
    | _ => []

/-- A record is CartLineItem-shaped (spec section 3) when it is an
object carrying at least the computed fields: a string `id`, a string
`name`, a numeric `price` and a numeric `quantity`. -/
def isCartLineItemShaped (j : Json) : Bool :=
  (match lookupField j "id" with | some (.str _) => true | _ => false) &&
  (match lookupField j "name" with | some (.str _) => true | _ => false) &&
  (match lookupField j "price" with | some (.num _) => true | _ => false) &&
  (match lookupField j "quantity" with | some (.num _) => true | _ => false)

/- ## Option collection (`src/script.js` lines 537-708) -/

/-- JS `a || b` on strings: the empty string (and an absent dataset
attribute, which this embedding also renders as `""`) falls through. -/
def jsOr (a b : String) : String :=
  if a = "" then b else a

/-- One `.menu-option-button`, with its selection state and the values
the code reads from it. -/
structure OptButton where
  selected : Bool
  datasetValue : String
  text : String
deriving DecidableEq, Repr

/-- `btn.dataset.value || btn.textContent.trim()`. -/
def buttonValue (b : OptButton) : String :=
  jsOr b.datasetValue (jsTrim b.text)

/-- One `.menu-option` group: the dataset attributes the code reads
(`""` for absent) and its buttons.  `maxAttr` is the result of
`parseInt(option.dataset.max, 10)` (`none` when not finite). -/
structure OptionGroup where
  selectionTypeAttr : String
  maxAttr : Option Int
  requiredAttr : String
  optionKeyAttr : String
  optionLabelAttr : String
  buttons : List OptButton
deriving DecidableEq, Repr

/-- `option.dataset.selectionType || 'single'`. -/
def selectionType (g : OptionGroup) : String :=
  jsOr g.selectionTypeAttr "single"

/-- `Number.isFinite(max) && max > 0 ? max : (multiple ? buttons.length : 1)`. -/
def maxSelections (g : OptionGroup) : Int :=
  match g.maxAttr with
  | some m => if 0 < m then m
      else if selectionType g = "multiple" then (g.buttons.length : Int) else 1
  | none => if selectionType g = "multiple" then (g.buttons.length : Int) else 1

/-- `option.dataset.required !== 'false'`. -/
def groupRequired (g : OptionGroup) : Bool :=
  g.requiredAttr ≠ "false"

/-- The buttons currently carrying `menu-option-button--selected`. -/
def selectedButtons (g : OptionGroup) : List OptButton :=
  g.buttons.filter (·.selected)

/-- A group fails validation when the selected count exceeds the
selection cap, or the group is required and nothing is selected. -/
def groupInvalid (g : OptionGroup) : Bool :=
  decide ((selectedButtons g).length > maxSelections g) ||
    (groupRequired g && decide ((selectedButtons g).length = 0))

/-- The `{key, label, value}` triple a valid, selected group pushes. -/
def groupTriple (g : OptionGroup) : OptTriple :=
  let values := (selectedButtons g).map buttonValue
  let valueString :=
    if selectionType g = "multiple" then String.intercalate ", " values
    else values.headD ""
  ⟨jsOr g.optionKeyAttr (jsOr g.optionLabelAttr "option"),
   jsOr g.optionLabelAttr (jsOr g.optionKeyAttr "Option"),
   valueString⟩

/-- One `select[data-required="true"]` control, with the values the
code reads from it (`""` for an absent attribute). -/
structure SelectCtl where
  value : String
  optionKeyAttr : String
  nameAttr : String
  optionLabelAttr : String
  ariaLabel : String
  prevLabelText : String
  selectedOptionText : String
deriving DecidableEq, Repr

/-- The `{key, label, value}` triple collected from a dropdown. -/
def selectTriple (s : SelectCtl) : OptTriple :=
  let optionLabel := jsOr s.optionLabelAttr (jsOr s.ariaLabel (jsTrim s.prevLabelText))
  let optionKey := jsOr s.optionKeyAttr (jsOr s.nameAttr ⟨optionLabel.data.map jsToLowerChar⟩)
  ⟨optionKey, jsOr optionLabel optionKey, jsTrim s.selectedOptionText⟩

/-- The contents of a `.menu-item-options` wrapper: its `.menu-option`
groups and, used only when there are no groups, its
`select[data-required="true"]` dropdowns. -/
structure OptionsWrapper where
  groups : List OptionGroup
  requiredSelects : List SelectCtl
deriving DecidableEq, Repr

/-- Result of `collectMenuItemOptions` (the fields the handler uses). -/
structure OptionData where
  options : List OptTriple
  isComplete : Bool
deriving DecidableEq, Repr

/-- `ShoppingCart.collectMenuItemOptions(menuItem)`: with no wrapper the
result is complete and empty.  With groups present, each group is
checked (over-cap, then required-but-empty) and every valid group with
a selection contributes a triple; completeness is all groups passing.
With no groups, every required dropdown must have a value; on success
the dropdown triples are collected. -/
def collectMenuItemOptions (w : Option OptionsWrapper) : OptionData :=
  match w with
  | none => ⟨[], true⟩
  | some w =>
    if w.groups.isEmpty then
      if w.requiredSelects.all (fun s => s.value ≠ "") then
        ⟨w.requiredSelects.map selectTriple, true⟩
      else ⟨[], false⟩
    else
      ⟨(w.groups.filter fun g =>
          !groupInvalid g && decide ((selectedButtons g).length > 0)).map groupTriple,
       w.groups.all fun g => !groupInvalid g⟩

/-- The data the add-to-cart click handler reads from a `.menu-item`
element: its dataset fields and its options wrapper.  `priceVal` is
`parseFloat(menuItem.dataset.price)`, carried as a separate field since
this embedding does not interpret float-parsing. -/
structure MenuItemData where
  name : String
  priceStr : String
  priceVal : ℚ
  category : String
  hasOptions : Bool
  wrapper : Option OptionsWrapper
deriving Repr

/-- The add-to-cart click handler of `setupAddToCartButtons`: when the
item has options and collection is incomplete, return without touching
the cart; otherwise build the item (id from `generateItemId`) and call
`addItem`.  The second component records whether `addItem` was invoked. -/
def handleAddToCart (m : MenuItemData) (now : Int) (s : CartState) :
    CartState × Bool :=
  let od := if m.hasOptions then collectMenuItemOptions m.wrapper else ⟨[], true⟩
  if !od.isComplete then (s, false)
  else
    (addItemOp now
      ⟨generateItemId m.name m.priceStr od.options, m.name, m.priceVal,
       m.category, od.options⟩ s, true)

/-- The option-validation failure conditions, per input shape: in group
mode, some group is required with nothing selected or has more
selections than its cap; in dropdown mode, some required dropdown has no
value chosen. -/
def optionValidationFails (w : OptionsWrapper) : Prop :=
  if w.groups.isEmpty then ∃ sel ∈ w.requiredSelects, sel.value = ""
  else ∃ g ∈ w.groups,
    (groupRequired g = true ∧ (selectedButtons g).length = 0) ∨
      maxSelections g < (selectedButtons g).length

/- ## Spec-side predicates

These follow the wording of the specification / claims, for comparison
with the code-derived definitions above (refinement claims only). -/

/-- A letter in the sense of the spec's name rule: an ASCII letter or an
accented Latin-1 letter (the Latin-1 Supplement range U+00C0..U+00FF
*minus* the non-letters `×` U+00D7 and `÷` U+00F7). -/
abbrev specLetter (c : Char) : Prop :=
  (97 ≤ c.toNat ∧ c.toNat ≤ 122) ∨ (65 ≤ c.toNat ∧ c.toNat ≤ 90) ∨
    (192 ≤ c.toNat ∧ c.toNat ≤ 255 ∧ c.toNat ≠ 215 ∧ c.toNat ≠ 247)

/-- The claim's name rule as stated: only letters (including accented
letters), spaces, hyphens and apostrophes, with length between 2 and
50. -/
abbrev specNameOrig (s : String) : Prop :=
  2 ≤ s.length ∧ s.length ≤ 50 ∧
    ∀ c ∈ s.data, specLetter c ∨ c = ' ' ∨ c = '-' ∨ c = '\''

/-- The amended name character set: what the class `[a-zA-ZÀ-ÿ\s'-]`
actually admits — ASCII letters, *every* code point U+00C0..U+00FF
(this includes the non-letters `×` and `÷`), any JS whitespace
character, hyphen, apostrophe. -/
abbrev specNameCharAmended (c : Char) : Prop :=
  (97 ≤ c.toNat ∧ c.toNat ≤ 122) ∨ (65 ≤ c.toNat ∧ c.toNat ≤ 90) ∨
    (192 ≤ c.toNat ∧ c.toNat ≤ 255) ∨ jsWhitespace c = true ∨
    c = '-' ∨ c = '\''

/-- The amended name rule: every character in the amended character set
and length between 2 and 50. -/
abbrev specNameAmended (s : String) : Prop :=
  2 ≤ s.length ∧ s.length ≤ 50 ∧ ∀ c ∈ s.data, specNameCharAmended c

/-- A run of exactly `n` ASCII digits. -/
abbrev digitGroup (n : Nat) (l : List Char) : Prop :=
  l.length = n ∧ ∀ c ∈ l, jsDigit c = true

/-- An optional single separator drawn from `sep`: absent or one
character satisfying it. -/
abbrev optSep (p : Char → Prop) (l : List Char) : Prop :=
  l = [] ∨ ∃ w, l = [w] ∧ p w

/-- The digit-grouping shape of the phone rule, parametrized by the
admissible separator character: 10 digits grouped 3-3-2-2, each pair of
adjacent groups separated by at most one separator character. -/
abbrev phoneGrouped (p : Char → Prop) (cs : List Char) : Prop :=
  ∃ g1 s1 g2 s2 g3 s3 g4,
    cs = g1 ++ s1 ++ g2 ++ s2 ++ g3 ++ s3 ++ g4 ∧
      digitGroup 3 g1 ∧ optSep p s1 ∧ digitGroup 3 g2 ∧ optSep p s2 ∧
      digitGroup 2 g3 ∧ optSep p s3 ∧ digitGroup 2 g4

/-- The claim's phone rule as stated: optional single *spaces*. -/
abbrev specPhoneOrig (s : String) : Prop :=
  phoneGrouped (· = ' ') s.data

/-- The amended phone rule: optional single JS *whitespace characters*
(`\s` is not only the space). -/
abbrev specPhoneAmended (s : String) : Prop :=
  phoneGrouped (fun c => jsWhitespace c = true) s.data

/- ## Concrete fixtures for the spec's worked example -/

/-- Item A of the spec's example: price 10.00. -/
def exItemA : ItemInput := ⟨"a", "Assiette Kebab", 10, "plats", []⟩

/-- Item B of the spec's example: price 6.00. -/
def exItemB : ItemInput := ⟨"b", "Falafel", 6, "plats", []⟩

/-- Add A twice and B once, starting from the empty cart. -/
def exCart1 : CartState :=
  applyOps emptyCart [.add 0 exItemA, .add 1 exItemA, .add 2 exItemB]

/-- Then `updateQuantity(A, 0)`. -/
def exCart2 : CartState := applyOp exCart1 (.update "a" 0)

/-- A fully CartLineItem-shaped persisted record with id `"a"`. -/
def exStoredEntry : Json :=
  .obj [("id", .str "a"), ("name", .str "Assiette Kebab"),
        ("price", .num 10), ("category", .str "plats"),
        ("options", .arr []), ("quantity", .num 1), ("addedAt", .num 0)]

/- ## Helper lemmas -/

/-- Accumulator form of `getTotal`'s reduce. -/
lemma getTotal_go (l : List Entry) :
    ∀ a : ℚ, l.foldl (fun total e => total + e.price * (e.quantity : ℚ)) a =
      a + (l.map fun e => e.price * (e.quantity : ℚ)).sum := by
  induction l with
  | nil => intro a; simp
  | cons e es ih => intro a; simp [ih, add_assoc]

/-- Accumulator form of `getTotalItems`'s reduce. -/
lemma getTotalItems_go (l : List Entry) :
    ∀ a : Int, l.foldl (fun total e => total + e.quantity) a =
      a + (l.map Entry.quantity).sum := by
  induction l with
  | nil => intro a; simp
  | cons e es ih => intro a; simp [ih, add_assoc]

/-- `setFirstQuantity` rewrites exactly the first entry carrying the id. -/
lemma setFirstQuantity_decomp (itemId : String) (n : Int) :
    ∀ items : List Entry, (∃ e ∈ items, e.id = itemId) →
      ∃ pre e post, items = pre ++ e :: post ∧ e.id = itemId ∧
        (∀ e' ∈ pre, e'.id ≠ itemId) ∧
        setFirstQuantity itemId n items = pre ++ { e with quantity := n } :: post := by
  intro items
  induction items with
  | nil => rintro ⟨e, he, _⟩; exact absurd he (List.not_mem_nil e)
  | cons a es ih =>
    rintro ⟨e, he, hid⟩
    by_cases ha : a.id = itemId
    · exact ⟨[], a, es, rfl, ha, by simp, by simp [setFirstQuantity, ha]⟩
    · have hes : ∃ e ∈ es, e.id = itemId := by
        rcases List.mem_cons.mp he with h | h
        · subst h; exact absurd hid ha
        · exact ⟨e, h, hid⟩
      rcases ih hes with ⟨pre, e', post, hsplit, hid', hpre, heq⟩
      refine ⟨a :: pre, e', post, by simp [hsplit], hid', ?_, ?_⟩
      · intro x hx
        rcases List.mem_cons.mp hx with h | h
        · subst h; exact ha
        · exact hpre x h
      · simp [setFirstQuantity, ha, heq]

/- ## C1 — addItem merges on equal computed id, else appends -/

/-- C1: for every cart state and item, if the item's id (as computed by
`generateItemId` in the handler) equals the id of an existing entry,
`addItem` increments the first such entry's quantity by 1 and inserts
nothing; otherwise it appends a new entry with quantity 1.  In
particular, adding the same logical item (same name, price string,
options — hence the same computed id) twice to an empty cart yields
exactly one entry with quantity 2. -/
theorem addItem_merges_or_appends (now : Int) (it : ItemInput) (cart : List Entry) :
    ((∃ e ∈ cart, e.id = it.id) →
      ∃ pre e post, cart = pre ++ e :: post ∧ e.id = it.id ∧
        (∀ e' ∈ pre, e'.id ≠ it.id) ∧
        addItemItems now it cart = pre ++ { e with quantity := e.quantity + 1 } :: post) ∧
    ((∀ e ∈ cart, e.id ≠ it.id) →
      addItemItems now it cart = cart ++ [mkEntry now it]) ∧
    (∀ (name priceStr category : String) (priceQ : ℚ) (opts : List OptTriple)
        (t1 t2 : Int),
      addItemItems t2 ⟨generateItemId name priceStr opts, name, priceQ, category, opts⟩
          (addItemItems t1
            ⟨generateItemId name priceStr opts, name, priceQ, category, opts⟩ []) =
        [⟨generateItemId name priceStr opts, name, priceQ, category, opts, 2, t1⟩]) := by
  refine ⟨?_, ?_, ?_⟩
  · induction cart with
    | nil => rintro ⟨e, he, _⟩; exact absurd he (List.not_mem_nil e)
    | cons a es ih =>
      rintro ⟨e, he, hid⟩
      by_cases ha : a.id = it.id
      · exact ⟨[], a, es, rfl, ha, by simp, by simp [addItemItems, ha]⟩
      · have hes : ∃ e ∈ es, e.id = it.id := by
          rcases List.mem_cons.mp he with h | h
          · subst h; exact absurd hid ha
          · exact ⟨e, h, hid⟩
        rcases ih hes with ⟨pre, e', post, hsplit, hid', hpre, heq⟩
        refine ⟨a :: pre, e', post, by simp [hsplit], hid', ?_, ?_⟩
        · intro x hx
          rcases List.mem_cons.mp hx with h | h
          · subst h; exact ha
          · exact hpre x h
        · simp [addItemItems, ha, heq]
  · induction cart with
    | nil => intro _; rfl
    | cons a es ih =>
      intro h
      have ha : a.id ≠ it.id := h a (by simp)
      have heq := ih fun e he => h e (List.mem_cons_of_mem a he)
      simp [addItemItems, ha, heq]
  · intro name priceStr category priceQ opts t1 t2
    simp [addItemItems, mkEntry]

/-- Witness for C1: a one-entry cart whose entry carries the incoming id
gets its quantity bumped in place. -/
theorem addItem_merges_or_appends_witness :
    ∃ pre e post,
      ([⟨"x", "X", (5 : ℚ), "c", [], 1, 0⟩] : List Entry) = pre ++ e :: post ∧
        e.id = "x" ∧ (∀ e' ∈ pre, e'.id ≠ "x") ∧
        addItemItems 7 ⟨"x", "X", 5, "c", []⟩ [⟨"x", "X", 5, "c", [], 1, 0⟩] =
          pre ++ { e with quantity := e.quantity + 1 } :: post :=
  (addItem_merges_or_appends 7 ⟨"x", "X", 5, "c", []⟩
    [⟨"x", "X", 5, "c", [], 1, 0⟩]).1 ⟨⟨"x", "X", 5, "c", [], 1, 0⟩, by simp, rfl⟩

/- ## C2 — totals are the sums; the spec's worked example -/

/-- C2: `getTotal` is the sum of `price * quantity` over the entries and
`getTotalItems` the sum of quantities, for every cart state (hence for
every state reached by any operation sequence); on the spec's example —
item A (price 10.00) added twice, item B (price 6.00) once — the total
is 26.00 with 3 items, and after `updateQuantity(A, 0)` it is 6.00 with
1 item. -/
theorem totals_are_sums :
    (∀ items : List Entry,
      getTotal items = (items.map fun e => e.price * (e.quantity : ℚ)).sum) ∧
    (∀ items : List Entry,
      getTotalItems items = (items.map Entry.quantity).sum) ∧
    getTotal exCart1.items = 26 ∧ getTotalItems exCart1.items = 3 ∧
    getTotal exCart2.items = 6 ∧ getTotalItems exCart2.items = 1 := by
  have h1 : exCart1.items =
      [⟨"a", "Assiette Kebab", 10, "plats", [], 2, 0⟩,
       ⟨"b", "Falafel", 6, "plats", [], 1, 2⟩] := rfl
  have h2 : exCart2.items = [⟨"b", "Falafel", 6, "plats", [], 1, 2⟩] := rfl
  refine ⟨fun items => ?_, fun items => ?_, ?_, by decide, ?_, by decide⟩
  · rw [getTotal, getTotal_go]; simp
  · rw [getTotalItems, getTotalItems_go]; simp
  · rw [h1]; norm_num [getTotal]
  · rw [h2]; norm_num [getTotal]

/- ## C3 — updateQuantity: non-positive removes, positive sets -/

/-- C3: for every cart state, id and integer `n`: with `n ≤ 0`,
`updateQuantity` leaves the item list exactly as `removeItem` would
(the entry, if present, is removed entirely); with `n > 0` and the id
present, the first matching entry's quantity becomes `n` and every
other entry is untouched. -/
theorem updateQuantity_removes_or_sets (s : CartState) (itemId : String) (n : Int) :
    (n ≤ 0 → (updateQuantityOp itemId n s).items = (removeItemOp itemId s).items) ∧
    (0 < n → (∃ e ∈ s.items, e.id = itemId) →
      ∃ pre e post, s.items = pre ++ e :: post ∧ e.id = itemId ∧
        (∀ e' ∈ pre, e'.id ≠ itemId) ∧
        (updateQuantityOp itemId n s).items = pre ++ { e with quantity := n } :: post) := by
  constructor
  · intro hn
    by_cases hany : s.items.any (fun e => e.id = itemId) = true
    · simp [updateQuantityOp, hany, hn]
    · have hall : ∀ e ∈ s.items, e.id ≠ itemId := by
        intro e he heq
        exact hany (List.any_eq_true.mpr ⟨e, he, by simp [heq]⟩)
      simp only [updateQuantityOp, hany, if_false, Bool.false_eq_true, if_neg,
        not_false_iff, removeItemOp, removeItems]
      exact (List.filter_eq_self.mpr (by intro e he; simpa using hall e he)).symm
  · intro hn hmem
    have hany : s.items.any (fun e => e.id = itemId) = true :=
      List.any_eq_true.mpr (by rcases hmem with ⟨e, he, hid⟩; exact ⟨e, he, by simp [hid]⟩)
    have hn' : ¬ n ≤ 0 := not_le.mpr hn
    rcases setFirstQuantity_decomp itemId n s.items hmem with
      ⟨pre, e, post, hsplit, hid, hpre, heq⟩
    exact ⟨pre, e, post, hsplit, hid, hpre, by simp [updateQuantityOp, hany, hn', heq]⟩

/-- Witness for C3: on a one-entry cart holding id `"x"`,
`updateQuantity("x", 0)` yields the same item list as `removeItem("x")`. -/
theorem updateQuantity_removes_or_sets_witness :
    (updateQuantityOp "x" 0 ⟨[⟨"x", "X", 5, "c", [], 2, 0⟩], 0⟩).items =
      (removeItemOp "x" ⟨[⟨"x", "X", 5, "c", [], 2, 0⟩], 0⟩).items :=
  (updateQuantity_removes_or_sets ⟨[⟨"x", "X", 5, "c", [], 2, 0⟩], 0⟩ "x" 0).1 le_rfl

/- ## C10 — updateQuantity on an absent id is a no-op -/

/-- C10: for every cart state, an id carried by no entry, and every
integer `n` (including `n ≤ 0`), `updateQuantity` leaves the whole cart
state unchanged — same item list and same number of persistence writes
(so no save is performed). -/
theorem updateQuantity_absent_id_noop (s : CartState) (itemId : String) (n : Int)
    (h : ∀ e ∈ s.items, e.id ≠ itemId) : updateQuantityOp itemId n s = s := by
  have hany : ¬ (s.items.any (fun e => e.id = itemId) = true) := by
    intro hb
    rcases List.any_eq_true.mp hb with ⟨e, he, hid⟩
    exact h e he (by simpa using hid)
  simp [updateQuantityOp, hany]

/-- Witness for C10: updating an id on the empty cart changes nothing. -/
theorem updateQuantity_absent_id_noop_witness :
    updateQuantityOp "z" 0 emptyCart = emptyCart :=
  updateQuantity_absent_id_noop emptyCart "z" 0
    (by intro e he; exact absurd he (List.not_mem_nil e))

/- ## More helper lemmas: id multiset and quantity positivity -/

/-- `addItem` never changes the id sequence except by appending the new
id when it was absent. -/
lemma addItemItems_map_id (now : Int) (it : ItemInput) :
    ∀ items : List Entry, (addItemItems now it items).map Entry.id =
      if items.any (fun e => e.id = it.id) then items.map Entry.id
      else items.map Entry.id ++ [it.id] := by
  intro items
  induction items with
  | nil => simp [addItemItems, mkEntry]
  | cons a es ih =>
    by_cases ha : a.id = it.id
    · simp [addItemItems, ha]
    · simp only [addItemItems, if_neg ha, List.map_cons, ih, List.any_cons,
        decide_eq_true_eq]
      by_cases hany : es.any (fun e => e.id = it.id) = true
      · simp [hany, ha]
      · simp only [Bool.not_eq_true] at hany
        simp [hany, ha]

/-- `setFirstQuantity` never changes the id sequence. -/
lemma setFirstQuantity_map_id (itemId : String) (n : Int) :
    ∀ items : List Entry,
      (setFirstQuantity itemId n items).map Entry.id = items.map Entry.id := by
  intro items
  induction items with
  | nil => rfl
  | cons a es ih =>
    by_cases ha : a.id = itemId
    · simp [setFirstQuantity, ha]
    · simp [setFirstQuantity, ha, ih]

/-- Every single operation preserves distinctness of the ids. -/
lemma nodup_applyOp (s : CartState) (op : CartOp)
    (h : (s.items.map Entry.id).Nodup) :
    ((applyOp s op).items.map Entry.id).Nodup := by
  cases op with
  | add now it =>
    simp only [applyOp, addItemOp]
    rw [addItemItems_map_id]
    split
    · exact h
    · rename_i hany
      have hni : it.id ∉ s.items.map Entry.id := by
        intro hmem
        rcases List.mem_map.mp hmem with ⟨e, he, hid⟩
        exact hany (List.any_eq_true.mpr ⟨e, he, by simp [hid]⟩)
      simp [List.nodup_append, h, hni]
  | remove itemId =>
    exact List.Nodup.sublist ((List.filter_sublist s.items).map Entry.id) h
  | update itemId n =>
    simp only [applyOp, updateQuantityOp]
    split
    · split
      · exact List.Nodup.sublist ((List.filter_sublist s.items).map Entry.id) h
      · simpa [setFirstQuantity_map_id] using h
    · exact h
  | clear => simp [applyOp, clearCartOp]

/-- Id distinctness is preserved by whole operation sequences. -/
lemma nodup_applyOps :
    ∀ (ops : List CartOp) (s : CartState), (s.items.map Entry.id).Nodup →
      ((applyOps s ops).items.map Entry.id).Nodup := by
  intro ops
  induction ops with
  | nil => intro s h; exact h
  | cons op rest ih =>
    intro s h
    exact ih (applyOp s op) (nodup_applyOp s op h)

/-- `addItem` keeps all quantities positive. -/
lemma pos_addItemItems (now : Int) (it : ItemInput) :
    ∀ items : List Entry, (∀ e ∈ items, 0 < e.quantity) →
      ∀ e ∈ addItemItems now it items, 0 < e.quantity := by
  intro items
  induction items with
  | nil =>
    intro _ e he
    simp [addItemItems] at he
    simp [he, mkEntry]
  | cons a es ih =>
    intro h e he
    by_cases ha : a.id = it.id
    · simp [addItemItems, ha] at he
      rcases he with he | he
      · have := h a (by simp); subst he; simpa using by omega
      · exact h e (List.mem_cons_of_mem a he)
    · simp only [addItemItems, if_neg ha, List.mem_cons] at he
      rcases he with he | he
      · subst he; exact h e (by simp)
      · exact ih (fun x hx => h x (List.mem_cons_of_mem a hx)) e he

/-- `setFirstQuantity` with a positive target keeps quantities positive. -/
lemma pos_setFirstQuantity (itemId : String) (n : Int) (hn : 0 < n) :
    ∀ items : List Entry, (∀ e ∈ items, 0 < e.quantity) →
      ∀ e ∈ setFirstQuantity itemId n items, 0 < e.quantity := by
  intro items
  induction items with
  | nil => intro _ e he; exact absurd he (List.not_mem_nil e)
  | cons a es ih =>
    intro h e he
    by_cases ha : a.id = itemId
    · simp [setFirstQuantity, ha] at he
      rcases he with he | he
      · subst he; simpa using hn
      · exact h e (List.mem_cons_of_mem a he)
    · simp only [setFirstQuantity, if_neg ha, List.mem_cons] at he
      rcases he with he | he
      · subst he; exact h e (by simp)
      · exact ih (fun x hx => h x (List.mem_cons_of_mem a hx)) e he

/-- Every single operation keeps quantities positive. -/
lemma pos_applyOp (s : CartState) (op : CartOp)
    (h : ∀ e ∈ s.items, 0 < e.quantity) :
    ∀ e ∈ (applyOp s op).items, 0 < e.quantity := by
  cases op with
  | add now it => exact pos_addItemItems now it s.items h
  | remove itemId =>
    intro e he
    exact h e (List.mem_of_mem_filter he)
  | update itemId n =>
    simp only [applyOp, updateQuantityOp]
    split
    · split
      · rename_i hn
        intro e he
        exact h e (List.mem_of_mem_filter he)
      · rename_i hn
        exact pos_setFirstQuantity itemId n (by omega) s.items h
    · exact h
  | clear => intro e he; exact absurd he (List.not_mem_nil e)

/-- Quantity positivity is preserved by whole operation sequences. -/
lemma pos_applyOps :
    ∀ (ops : List CartOp) (s : CartState), (∀ e ∈ s.items, 0 < e.quantity) →
      ∀ e ∈ (applyOps s ops).items, 0 < e.quantity := by
  intro ops
  induction ops with
  | nil => intro s h; exact h
  | cons op rest ih =>
    intro s h
    exact ih (applyOp s op) (pos_applyOp s op h)

/- ## C7 — every reachable quantity is a positive integer -/

/-- C7: in every cart state reachable from the empty cart by
`addItem` / `removeItem` / `updateQuantity` (integer argument) /
`clearCart`, every entry's quantity is positive — an entry whose
quantity would become zero or less is removed instead. -/
theorem cart_quantities_positive (ops : List CartOp) :
    ((applyOps emptyCart ops).items.all fun e => decide (0 < e.quantity)) = true := by
  have h : ∀ e ∈ (applyOps emptyCart ops).items, 0 < e.quantity :=
    pos_applyOps ops emptyCart
      (by intro e he; exact absurd he (List.not_mem_nil e))
  rw [List.all_eq_true]
  intro e he
  simpa using h e he

/- ## C6 — ids are distinct: true for mutations, false for restore -/

/-- Counterexample for C6 as stated: persisted storage can hold two
fully CartLineItem-shaped records with the same id, and
`loadCartFromStorage` restores both without deduplication, so the
restored cart state has two entries sharing the id `"a"`. -/
theorem restore_allows_duplicate_ids_cex :
    isCartLineItemShaped exStoredEntry = true ∧
    (loadCartFromStorage (.parsed (.arr [exStoredEntry, exStoredEntry]))).length = 2 ∧
    ∃ j0 j1,
      (loadCartFromStorage (.parsed (.arr [exStoredEntry, exStoredEntry]))).get? 0 =
          some j0 ∧
        (loadCartFromStorage (.parsed (.arr [exStoredEntry, exStoredEntry]))).get? 1 =
          some j1 ∧
        lookupField j0 "id" = some (.str "a") ∧
        lookupField j1 "id" = some (.str "a") :=
  ⟨rfl, rfl, exStoredEntry, exStoredEntry, rfl, rfl, rfl, rfl⟩

/-- C6 (amended): starting from a cart whose entries already have
pairwise-distinct ids — in particular the empty cart — every sequence
of `addItem` / `removeItem` / `updateQuantity` / `clearCart` operations
preserves distinctness of the ids. -/
theorem cart_ids_distinct (ops : List CartOp) (s : CartState)
    (h : (s.items.map Entry.id).Nodup) :
    ((applyOps s ops).items.map Entry.id).Nodup :=
  nodup_applyOps ops s h

/-- Witness for C6 (amended): from the empty cart, adding A twice and B
once leaves the ids distinct. -/
theorem cart_ids_distinct_witness :
    ((applyOps emptyCart
        [.add 0 exItemA, .add 1 exItemA, .add 2 exItemB]).items.map
      Entry.id).Nodup :=
  cart_ids_distinct [.add 0 exItemA, .add 1 exItemA, .add 2 exItemB] emptyCart
    (by simp [emptyCart])

/- ## C5 — restore from malformed storage -/

/-- Counterexample for C5 as stated: `"[{}]"` parses to an array whose
only element is *not* a CartLineItem-shaped record, yet
`loadCartFromStorage` returns a non-empty list (the empty object with
normalized `options`), not the empty cart. -/
theorem restore_malformed_array_cex :
    isCartLineItemShaped (Json.obj []) = false ∧
    loadCartFromStorage (.parsed (.arr [Json.obj []])) =
      [Json.obj [("options", Json.arr [])]] ∧
    loadCartFromStorage (.parsed (.arr [Json.obj []])) ≠ [] :=
  ⟨rfl, rfl, fun h => List.noConfusion h⟩

/-- C5 (amended): restoring yields the empty cart (and no exception
propagates — every branch, including a parse failure, returns a value)
exactly for absent text, text that fails to parse, and parsed documents
that are not arrays; a parsed array is restored entry-by-entry with
`options` normalized, with no validation of the entries' shape. -/
theorem restore_fallback_amended :
    loadCartFromStorage .absent = [] ∧
    loadCartFromStorage .unparsable = [] ∧
    loadCartFromStorage (.parsed .null) = [] ∧
    (∀ b, loadCartFromStorage (.parsed (.bool b)) = []) ∧
    (∀ q, loadCartFromStorage (.parsed (.num q)) = []) ∧
    (∀ s, loadCartFromStorage (.parsed (.str s)) = []) ∧
    (∀ fs, loadCartFromStorage (.parsed (.obj fs)) = []) ∧
    (∀ l, loadCartFromStorage (.parsed (.arr l)) = l.map normalizeEntry) :=
  ⟨rfl, rfl, rfl, fun _ => rfl, fun _ => rfl, fun _ => rfl, fun _ => rfl,
    fun _ => rfl⟩

/- ## C4 — checkout guards -/

/-- C4: `checkout()` presents the order summary exactly when the cart is
non-empty, the customer details validate, and the total is at least the
minimum order threshold; whenever it is rejected, the item list is what
it was and no persistence write happens. -/
theorem checkout_guard_spec (items : List Entry) (f : CheckoutFields)
    (confirm : Bool) :
    ((checkout items f confirm).accepted = true ↔
      items ≠ [] ∧ validateCheckoutDetails f = true ∧
        MIN_ORDER_TOTAL ≤ getTotal items) ∧
    ((checkout items f confirm).accepted = false →
      (checkout items f confirm).items = items ∧
        (checkout items f confirm).saved = false) := by
  constructor
  · unfold checkout
    split_ifs with h1 h2 h3 h4 <;>
      simp_all [List.length_eq_zero, not_lt]
  · unfold checkout
    split_ifs with h1 h2 h3 h4 <;> simp_all

/-- Witness for C4: checkout on the empty cart is rejected with the
(empty) list unmodified and nothing persisted. -/
theorem checkout_guard_spec_witness :
    (checkout [] ⟨"", "", "", "", "", ""⟩ true).items = [] ∧
      (checkout [] ⟨"", "", "", "", "", ""⟩ true).saved = false :=
  (checkout_guard_spec [] ⟨"", "", "", "", "", ""⟩ true).2 rfl

/- ## C9 — failed option validation aborts the add-to-cart action -/

/-- C9: for a menu item with options, whenever option validation fails —
in group mode some group is required with nothing selected or exceeds
its selection cap, in dropdown mode some required dropdown has no value
— the click handler returns before `addItem`: the cart state is
unchanged and `addItem` is not invoked (second component `false`). -/
theorem invalid_options_abort (m : MenuItemData) (w : OptionsWrapper)
    (now : Int) (s : CartState) (h1 : m.hasOptions = true)
    (h2 : m.wrapper = some w) (hf : optionValidationFails w) :
    handleAddToCart m now s = (s, false) := by
  have hic : (collectMenuItemOptions (some w)).isComplete = false := by
    unfold optionValidationFails at hf
    by_cases hg : w.groups.isEmpty = true
    · rw [if_pos hg] at hf
      rcases hf with ⟨sel, hmem, hval⟩
      have hnot : ¬ ∀ x ∈ w.requiredSelects, ¬ x.value = "" :=
        fun hcontra => hcontra sel hmem hval
      simp [collectMenuItemOptions, hg, hnot]
    · rw [if_neg hg] at hf
      rcases hf with ⟨g, hmem, hbad⟩
      have hinv : groupInvalid g = true := by
        rcases hbad with ⟨hreq, hzero⟩ | hmax
        · simp [groupInvalid, hreq, hzero]
        · simp [groupInvalid, hmax]
      have hall : (w.groups.all fun g => !groupInvalid g) = false := by
        rw [List.all_eq_false]
        exact ⟨g, hmem, by simp [hinv]⟩
      simp [collectMenuItemOptions, hg, hall]
  unfold handleAddToCart
  rw [h1, h2]
  simp [hic]

/- ## Regex characterization lemmas (for C8) -/

/-- `takeDigits n` succeeds exactly on an `n`-digit prefix. -/
lemma takeDigits_eq_some :
    ∀ (n : Nat) (cs r : List Char), takeDigits n cs = some r ↔
      ∃ p, cs = p ++ r ∧ p.length = n ∧ ∀ c ∈ p, jsDigit c = true := by
  intro n
  induction n with
  | zero =>
    intro cs r
    constructor
    · intro h
      refine ⟨[], ?_, rfl, by intro c hc; exact absurd hc (List.not_mem_nil c)⟩
      simpa [takeDigits] using h
    · rintro ⟨p, hcs, hlen, _⟩
      rw [List.length_eq_zero] at hlen
      subst hlen
      simpa [takeDigits] using hcs
  | succ n ih =>
    intro cs r
    cases cs with
    | nil =>
      constructor
      · intro h; exact absurd h (by simp [takeDigits])
      · rintro ⟨p, hcs, hlen, _⟩
        cases p with
        | nil => simp at hlen
        | cons a t => simp at hcs
    | cons c cs =>
      by_cases hd : jsDigit c = true
      · constructor
        · intro h
          simp only [takeDigits, if_pos hd] at h
          rcases (ih cs r).mp h with ⟨p, hcs, hlen, hdig⟩
          refine ⟨c :: p, by simp [hcs], by simp [hlen], ?_⟩
          intro x hx
          rcases List.mem_cons.mp hx with h | h
          · subst h; exact hd
          · exact hdig x h
        · rintro ⟨p, hcs, hlen, hdig⟩
          cases p with
          | nil => simp at hlen
          | cons a t =>
            simp only [List.cons_append, List.cons.injEq] at hcs
            simp only [takeDigits, if_pos hd]
            refine (ih cs r).mpr ⟨t, hcs.2, by simpa using hlen, ?_⟩
            intro x hx
            exact hdig x (List.mem_cons_of_mem a hx)
      · constructor
        · intro h
          simp [takeDigits, hd] at h
        · rintro ⟨p, hcs, hlen, hdig⟩
          cases p with
          | nil => simp at hlen
          | cons a t =>
            simp only [List.cons_append, List.cons.injEq] at hcs
            exact absurd (hcs.1 ▸ hdig a (by simp)) hd

/-- Prefix form of `takeDigits_eq_some`. -/
lemma takeDigits_prepend (n : Nat) (p r : List Char) (hlen : p.length = n)
    (hdig : ∀ c ∈ p, jsDigit c = true) : takeDigits n (p ++ r) = some r :=
  (takeDigits_eq_some n (p ++ r) r).mpr ⟨p, rfl, hlen, hdig⟩

/-- `skipOptWs` splits off an optional single whitespace character. -/
lemma skipOptWs_decomp (r : List Char) :
    ∃ s1, r = s1 ++ skipOptWs r ∧ optSep (fun c => jsWhitespace c = true) s1 := by
  cases r with
  | nil => exact ⟨[], rfl, Or.inl rfl⟩
  | cons c cs =>
    by_cases hws : jsWhitespace c = true
    · exact ⟨[c], by simp [skipOptWs, hws], Or.inr ⟨c, rfl, hws⟩⟩
    · exact ⟨[], by simp [skipOptWs, hws], Or.inl rfl⟩

/-- A digit character is not a whitespace character. -/
lemma jsDigit_not_ws (c : Char) (h : jsDigit c = true) : jsWhitespace c = false := by
  rw [jsDigit, decide_eq_true_eq] at h
  rw [jsWhitespace, decide_eq_false_iff_not]
  omega

/-- `skipOptWs` consumes exactly an optional separator in front of a
digit-headed remainder. -/
lemma skipOptWs_sep (s1 rest : List Char)
    (hsep : optSep (fun c => jsWhitespace c = true) s1)
    (hd : ∃ d t, rest = d :: t ∧ jsDigit d = true) :
    skipOptWs (s1 ++ rest) = rest := by
  rcases hd with ⟨d, t, hrest, hdig⟩
  rcases hsep with h | ⟨w, hw, hws⟩
  · subst h
    subst hrest
    simp [skipOptWs, jsDigit_not_ws d hdig]
  · subst hw
    simp [skipOptWs, hws]

/-- A non-empty digit group starts with a digit. -/
lemma digitGroup_head (n : Nat) (l : List Char) (h : digitGroup (n + 1) l) :
    ∃ d t, l = d :: t ∧ jsDigit d = true := by
  rcases h with ⟨hlen, hdig⟩
  cases l with
  | nil => simp at hlen
  | cons d t => exact ⟨d, t, rfl, hdig d (by simp)⟩

/-- The phone parser accepts exactly the 3-3-2-2 digit grouping with
optional single whitespace separators. -/
lemma phoneParse_iff (cs : List Char) :
    phoneParse cs = some [] ↔ phoneGrouped (fun c => jsWhitespace c = true) cs := by
  constructor
  · intro h
    unfold phoneParse at h
    rcases Option.bind_eq_some.mp h with ⟨r1, h1, h⟩
    rcases Option.bind_eq_some.mp h with ⟨r2, h2, h⟩
    rcases Option.bind_eq_some.mp h with ⟨r3, h3, h4⟩
    rcases (takeDigits_eq_some 3 cs r1).mp h1 with ⟨g1, hcs1, hlen1, hdig1⟩
    rcases skipOptWs_decomp r1 with ⟨s1, hr1, hsep1⟩
    rcases (takeDigits_eq_some 3 (skipOptWs r1) r2).mp h2 with ⟨g2, hcs2, hlen2, hdig2⟩
    rcases skipOptWs_decomp r2 with ⟨s2, hr2, hsep2⟩
    rcases (takeDigits_eq_some 2 (skipOptWs r2) r3).mp h3 with ⟨g3, hcs3, hlen3, hdig3⟩
    rcases skipOptWs_decomp r3 with ⟨s3, hr3, hsep3⟩
    rcases (takeDigits_eq_some 2 (skipOptWs r3) []).mp h4 with ⟨g4, hcs4, hlen4, hdig4⟩
    refine ⟨g1, s1, g2, s2, g3, s3, g4, ?_, ⟨hlen1, hdig1⟩, hsep1, ⟨hlen2, hdig2⟩,
      hsep2, ⟨hlen3, hdig3⟩, hsep3, ⟨hlen4, hdig4⟩⟩
    rw [hcs1, hr1, hcs2, hr2, hcs3, hr3, hcs4]
    simp [List.append_assoc]
  · rintro ⟨g1, s1, g2, s2, g3, s3, g4, hcs, hg1, hs1, hg2, hs2, hg3, hs3, hg4⟩
    subst hcs
    have e1 : takeDigits 3 (g1 ++ (s1 ++ (g2 ++ (s2 ++ (g3 ++ (s3 ++ g4)))))) =
        some (s1 ++ (g2 ++ (s2 ++ (g3 ++ (s3 ++ g4))))) :=
      takeDigits_prepend 3 g1 _ hg1.1 hg1.2
    have e2 : skipOptWs (s1 ++ (g2 ++ (s2 ++ (g3 ++ (s3 ++ g4))))) =
        g2 ++ (s2 ++ (g3 ++ (s3 ++ g4))) := by
      apply skipOptWs_sep _ _ hs1
      rcases digitGroup_head 2 g2 hg2 with ⟨d, t, hdt, hd⟩
      exact ⟨d, t ++ (s2 ++ (g3 ++ (s3 ++ g4))), by simp [hdt], hd⟩
    have e3 : takeDigits 3 (g2 ++ (s2 ++ (g3 ++ (s3 ++ g4)))) =
        some (s2 ++ (g3 ++ (s3 ++ g4))) :=
      takeDigits_prepend 3 g2 _ hg2.1 hg2.2
    have e4 : skipOptWs (s2 ++ (g3 ++ (s3 ++ g4))) = g3 ++ (s3 ++ g4) := by
      apply skipOptWs_sep _ _ hs2
      rcases digitGroup_head 1 g3 hg3 with ⟨d, t, hdt, hd⟩
      exact ⟨d, t ++ (s3 ++ g4), by simp [hdt], hd⟩
    have e5 : takeDigits 2 (g3 ++ (s3 ++ g4)) = some (s3 ++ g4) :=
      takeDigits_prepend 2 g3 _ hg3.1 hg3.2
    have e6 : skipOptWs (s3 ++ g4) = g4 := by
      apply skipOptWs_sep _ _ hs3
      rcases digitGroup_head 1 g4 hg4 with ⟨d, t, hdt, hd⟩
      exact ⟨d, t, hdt, hd⟩
    have e7 : takeDigits 2 g4 = some [] :=
      (takeDigits_eq_some 2 g4 []).mpr ⟨g4, by simp, hg4.1, hg4.2⟩
    unfold phoneParse
    simp only [List.append_assoc, e1, Option.some_bind, e2, e3, e4, e5, e6, e7]

/-- The name character class agrees character-wise with the amended
description. -/
lemma nameClassChar_iff (c : Char) :
    nameClassChar c = true ↔ specNameCharAmended c := by
  unfold nameClassChar specNameCharAmended
  simp only [Bool.or_eq_true, decide_eq_true_eq]
  tauto

/-- Every string accepted by a grouped phone shape consists of digits
and separator characters only. -/
lemma phoneGrouped_chars (p : Char → Prop) (cs : List Char)
    (h : phoneGrouped p cs) : ∀ c ∈ cs, jsDigit c = true ∨ p c := by
  rcases h with ⟨g1, s1, g2, s2, g3, s3, g4, hcs, hg1, hs1, hg2, hs2, hg3, hs3, hg4⟩
  subst hcs
  have sepMem : ∀ (l : List Char), optSep p l → ∀ c ∈ l, p c := by
    rintro l (h | ⟨w, hw, hpw⟩) c hc
    · subst h; exact absurd hc (List.not_mem_nil c)
    · subst hw
      rcases List.mem_singleton.mp hc with rfl
      exact hpw
  intro c hc
  simp only [List.append_assoc, List.mem_append] at hc
  rcases hc with hc | hc | hc | hc | hc | hc | hc
  · exact Or.inl (hg1.2 c hc)
  · exact Or.inr (sepMem s1 hs1 c hc)
  · exact Or.inl (hg2.2 c hc)
  · exact Or.inr (sepMem s2 hs2 c hc)
  · exact Or.inl (hg3.2 c hc)
  · exact Or.inr (sepMem s3 hs3 c hc)
  · exact Or.inl (hg4.2 c hc)

/- ## C8 — validation patterns: counterexample and amended statement -/

/-- Counterexample for C8 as stated: the string `"××"` (two
multiplication signs U+00D7) is accepted by the name pattern and by the
checkout validation of a last name, yet it does not consist of letters,
spaces, hyphens or apostrophes; and the phone pattern accepts a TAB as
group separator, which the claim's "optional single spaces" excludes. -/
theorem validation_patterns_cex :
    checkoutFieldOk "lastName" "××" = true ∧ nameTest "××" = true ∧
    ¬ specNameOrig "××" ∧
    phoneTest "078\t123 45 67" = true ∧ ¬ specPhoneOrig "078\t123 45 67" := by
  refine ⟨by decide, by decide, by decide, by decide, ?_⟩
  intro h
  rcases phoneGrouped_chars _ _ h '\t' (by decide) with h | h
  · exact absurd h (by decide)
  · exact absurd h (by decide)

/-- C8 (amended): the name pattern accepts exactly the strings of
length 2..50 whose characters are ASCII letters, code points
U+00C0..U+00FF (a range that also contains the non-letters `×` and
`÷`), JS whitespace characters, hyphens or apostrophes; the phone
pattern accepts exactly 10 digits grouped 3-3-2-2 with at most one JS
whitespace character (not only the space) between adjacent groups; and
checkout validation tests names and phone on the trimmed value and
accepts the payment method exactly when its trimmed value is
non-empty. -/
theorem validation_patterns_amended (s : String) :
    (nameTest s = true ↔ specNameAmended s) ∧
    (phoneTest s = true ↔ specPhoneAmended s) ∧
    (checkoutFieldOk "lastName" s = nameTest (jsTrim s)) ∧
    (checkoutFieldOk "firstName" s = nameTest (jsTrim s)) ∧
    (checkoutFieldOk "phone" s = phoneTest (jsTrim s)) ∧
    (checkoutFieldOk "paymentMethod" s = true ↔ jsTrim s ≠ "") := by
  refine ⟨?_, ?_, ?_, ?_, ?_, ?_⟩
  · unfold nameTest specNameAmended
    rw [Bool.and_eq_true, Bool.and_eq_true, List.all_eq_true]
    constructor
    · rintro ⟨⟨h1, h2⟩, h3⟩
      exact ⟨by simpa using h1, by simpa using h2,
        fun c hc => (nameClassChar_iff c).mp (h3 c hc)⟩
    · rintro ⟨h1, h2, h3⟩
      exact ⟨⟨by simpa using h1, by simpa using h2⟩,
        fun c hc => (nameClassChar_iff c).mpr (h3 c hc)⟩
  · unfold phoneTest specPhoneAmended
    rw [decide_eq_true_eq]
    exact phoneParse_iff s.data
  · by_cases h : jsTrim s = ""
    · simp [checkoutFieldOk, h, nameTest]
    · simp [checkoutFieldOk, h]
  · by_cases h : jsTrim s = ""
    · simp [checkoutFieldOk, h, nameTest]
    · simp [checkoutFieldOk, h]
  · by_cases h : jsTrim s = ""
    · simp [checkoutFieldOk, h, phoneTest, phoneParse, takeDigits]
    · simp [checkoutFieldOk, h]
  · simp [checkoutFieldOk]

/-- Witness for C9: a required option group with no selected button
aborts the add; the cart is untouched and `addItem` is not called. -/
theorem invalid_options_abort_witness :
    handleAddToCart
        ⟨"Kebab", "12.50", 25 / 2, "plats", true,
          some ⟨[⟨"", none, "", "sauce", "Sauce", [⟨false, "Ail", "Ail"⟩]⟩], []⟩⟩
        0 emptyCart = (emptyCart, false) :=
  invalid_options_abort
    ⟨"Kebab", "12.50", 25 / 2, "plats", true,
      some ⟨[⟨"", none, "", "sauce", "Sauce", [⟨false, "Ail", "Ail"⟩]⟩], []⟩⟩
    ⟨[⟨"", none, "", "sauce", "Sauce", [⟨false, "Ail", "Ail"⟩]⟩], []⟩
    0 emptyCart rfl rfl
    (by
      unfold optionValidationFails
      rw [if_neg (by simp)]
      exact ⟨⟨"", none, "", "sauce", "Sauce", [⟨false, "Ail", "Ail"⟩]⟩, by simp,
        Or.inl ⟨rfl, rfl⟩⟩)
